import Mathlib

/-!
Verification development for the repo-analyzer file server
(`src/containers/repo-analyzer/server.py`).

The server is a small Flask application with five routes: `/health`,
`/clone` (shallow git clone of a repository into `/repos/<owner>_<repo>`),
`/files` (recursive file inventory of a snapshot), `/file/<path>` (single
file read) and `/analyze` (batch file read with a size cap).

This file gives a shallow embedding of the handlers as pure Lean
functions.  The filesystem is modelled as a tree of directories and
text files; the Python `os.path` string operations used by the server
(`join`, `abspath`/`normpath`, `startswith`, `in`, `replace`) are
embedded as executable functions over Lean strings, following the
CPython (POSIX) semantics.
-/

namespace RepoAnalyzer

/-! ## Python string primitives -/

/-- Python `str.startswith`: string prefix test (`s.startswith(pre)`). -/
def pyStartswith (s pre : String) : Bool :=
  pre.toList.isPrefixOf s.toList

/-- Python `str.endswith`: string suffix test (`s.endswith(suf)`). -/
def pyEndswith (s suf : String) : Bool :=
  suf.toList.isSuffixOf s.toList

/-- Auxiliary for the substring test: does `needle` occur contiguously in
the list? -/
def seqOccurs (needle : List Char) : List Char → Bool
  | [] => needle.isEmpty
  | c :: rest => needle.isPrefixOf (c :: rest) || seqOccurs needle rest

/-- Python's `needle in hay` substring containment test. -/
def strContains (hay needle : String) : Bool :=
  seqOccurs needle.toList hay.toList

/-- Auxiliary for splitting on `'/'`: accumulates the current component
(reversed) and emits a component at every slash.  Matches Python
`s.split('/')`, which always yields at least one (possibly empty)
component. -/
def splitSlashAux (cur : List Char) : List Char → List (List Char)
  | [] => [cur.reverse]
  | c :: rest =>
    if c = '/' then cur.reverse :: splitSlashAux [] rest
    else splitSlashAux (c :: cur) rest

/-- Split on slashes, Python `s.split('/')`, as used by POSIX `os.path` internals. -/
def splitSlash (s : String) : List String :=
  (splitSlashAux [] s.toList).map String.mk

/-! ## `os.path` (POSIX) -/

/-- POSIX `os.path.join(a, b)`: an absolute second argument discards
the first; otherwise the two are joined with a single separator. -/
def pyJoin (a b : String) : String :=
  if pyStartswith b "/" then b
  else if a = "" ∨ pyEndswith a "/" then a ++ b
  else a ++ "/" ++ b

/-- Number of leading `'/'` characters (POSIX `normpath` keeps a double
slash, and only a double slash, as such). -/
def leadingSlashes (s : String) : Nat :=
  (s.toList.takeWhile (fun c => c = '/')).length

/-- The component-stack loop of POSIX `os.path.normpath`: empty and `.`
components are dropped; `..` pops a previous real component, is dropped
at the root of an absolute path, and accumulates otherwise.  The stack
is kept reversed. -/
def normStack (isAbs : Bool) : List String → List String → List String
  | stack, [] => stack
  | stack, comp :: rest =>
    if comp = "" ∨ comp = "." then normStack isAbs stack rest
    else if comp = ".." then
      match stack with
      | [] => normStack isAbs (if isAbs then [] else [".."]) rest
      | top :: stack' =>
        if top = ".." then normStack isAbs (comp :: top :: stack') rest
        else normStack isAbs stack' rest
    else normStack isAbs (comp :: stack) rest

/-- POSIX `os.path.normpath`. -/
def normpath (p : String) : String :=
  let isAbs := pyStartswith p "/"
  let comps := (normStack isAbs [] (splitSlash p)).reverse
  let body := String.intercalate "/" comps
  if isAbs then
    let slashes := if leadingSlashes p = 2 then "//" else "/"
    if body = "" then slashes else slashes ++ body
  else
    if body = "" then "." else body

/-- Embedding of `os.path.abspath`.  Every call site in the server passes an absolute
path (all paths are joined onto the absolute `REPO_DIR = "/repos"`), so
the working directory never contributes and `abspath` reduces to
`normpath`. -/
def abspath (p : String) : String := normpath p

/-- The path's non-empty components. -/
def segsOf (p : String) : List String :=
  (splitSlash p).filter (fun s => s != "")

/-! ## `str.replace` -/

/-- Left-to-right, non-overlapping replacement of a non-empty pattern,
as performed by CPython `str.replace`.  The `Nat` argument is a
recursion bound, always instantiated with the length of the scanned
list; each step consumes at least one character, so the bound is never
reached. -/
def replaceAux (pat rep : List Char) : Nat → List Char → List Char
  | _, [] => []
  | 0, l => l
  | fuel + 1, c :: rest =>
    if pat ≠ [] ∧ pat.isPrefixOf (c :: rest) then
      rep ++ replaceAux pat rep fuel (rest.drop (pat.length - 1))
    else c :: replaceAux pat rep fuel rest

/-- Python `s.replace(pat, rep)`.  An empty pattern makes Python
interleave the replacement around every character; the server only calls
this with the pattern `"https://"`. -/
def pyReplace (s pat rep : String) : String :=
  if pat = "" then
    if s = "" then rep
    else rep ++ String.intercalate rep (s.toList.map (fun c => String.mk [c])) ++ rep
  else String.mk (replaceAux pat.toList rep.toList s.toList.length s.toList)

/-! ## Filesystem model

A filesystem is a tree of directories and text files.  File contents are
decoded character sequences (the server always opens files in text mode
with `encoding='utf-8'`); the on-disk byte size of a file is the UTF-8
byte length of its contents. -/

/-- A node of the filesystem tree. -/
inductive FSNode where
  | file (content : List Char) : FSNode
  | dir (entries : List (String × FSNode)) : FSNode

/-- UTF-8 byte size of a text file's contents (`os.stat(...).st_size`). -/
def byteSize (content : List Char) : Nat :=
  (content.map Char.utf8Size).sum

/-- Resolve a component list in the tree. -/
def FSNode.lookup (n : FSNode) : List String → Option FSNode
  | [] => some n
  | s :: rest =>
    match n with
    | .file _ => none
    | .dir entries =>
      match entries.find? (fun e => e.1 == s) with
      | none => none
      | some e => FSNode.lookup e.2 rest

/-- Embedding of `os.path.exists`: the kernel resolves `.` and `..` before the lookup
(the model has no symlinks, so lexical normalization agrees with the
kernel's resolution). -/
def pathExists (fs : FSNode) (p : String) : Bool :=
  (fs.lookup (segsOf (normpath p))).isSome

/-- Embedding of `os.path.isfile`. -/
def isFile (fs : FSNode) (p : String) : Bool :=
  match fs.lookup (segsOf (normpath p)) with
  | some (.file _) => true
  | _ => false

/-- Full text-mode read, `open(p, 'r', encoding='utf-8', errors='ignore').read()`: the decoded
contents of the file at `p` (empty if `p` is not a file; the handlers
only read after checking `isfile`). -/
def readAll (fs : FSNode) (p : String) : List Char :=
  match fs.lookup (segsOf (normpath p)) with
  | some (.file c) => c
  | _ => []

/-! ## The server's constants and path security check -/

/-- The storage root, `REPO_DIR = "/repos"` (server.py line 15). -/
def REPO_DIR : String := "/repos"

/-- The directory name for a snapshot key: the f-string
`f"{owner}_{repo}"` used by all four handlers. -/
def snapshotDirName (owner repo : String) : String :=
  owner ++ "_" ++ repo

/-- The security check of `get_file` (line 114) and `analyze_files`
(line 155): `os.path.abspath(full_path).startswith(os.path.abspath(repo_path))`. -/
def resolveOk (repo_path full_path : String) : Bool :=
  pyStartswith (abspath full_path) (abspath repo_path)

/-! ## `GET /file/<path>` — `get_file` (lines 102-135) -/

/-- Outcome of `get_file`: 400 missing params, 400 "Invalid file path",
404 "File not found", 400 "Path is not a file", or 200 with the path
echoed and the full decoded content. -/
inductive GetFileResult where
  | missingParams : GetFileResult
  | invalidPath : GetFileResult
  | notFound : GetFileResult
  | notAFile : GetFileResult
  | ok (path : String) (content : List Char) : GetFileResult
deriving DecidableEq

/-- Embedding of `get_file`.  `owner`/`repo` are the query parameters
(`""` models an absent or empty, i.e. falsy, parameter). -/
def get_file (fs : FSNode) (owner repo file_path : String) : GetFileResult :=
  if owner = "" ∨ repo = "" then .missingParams
  else
    let repo_path := pyJoin REPO_DIR (snapshotDirName owner repo)
    let full_path := pyJoin repo_path file_path
    if !resolveOk repo_path full_path then .invalidPath
    else if !pathExists fs full_path then .notFound
    else if !isFile fs full_path then .notAFile
    else .ok file_path (readAll fs full_path)

/-! ## `POST /analyze` — `analyze_files` (lines 137-188) -/

/-- One entry of the batch result: the requested path, the (possibly
truncated or empty) content, and the optional error message. -/
structure AnalyzeEntry where
  path : String
  content : List Char
  error : Option String
deriving DecidableEq

/-- The body of the per-path loop of `analyze_files` (lines 151-186):
security check, then combined exists/isfile check, then a read of at
most `max_size` characters from the decoded stream
(`f.read(max_size)` on a text-mode file). -/
def analyzeOne (fs : FSNode) (repo_path : String) (max_size : Nat)
    (file_path : String) : AnalyzeEntry :=
  let full_path := pyJoin repo_path file_path
  if !resolveOk repo_path full_path then
    { path := file_path, content := [], error := some "Invalid file path" }
  else if !pathExists fs full_path || !isFile fs full_path then
    { path := file_path, content := [], error := some "File not found" }
  else
    { path := file_path, content := (readAll fs full_path).take max_size,
      error := none }

/-- Outcome of `analyze_files`: 400 missing params, 404 repository not
cloned, or 200 with one entry per requested path. -/
inductive AnalyzeResult where
  | missingParams : AnalyzeResult
  | repoNotCloned : AnalyzeResult
  | ok (files : List AnalyzeEntry) : AnalyzeResult
deriving DecidableEq

/-- Embedding of `analyze_files`.  `max_size` defaults to 8000 in the
source; it is passed explicitly here. -/
def analyze_files (fs : FSNode) (owner repo : String)
    (file_paths : List String) (max_size : Nat) : AnalyzeResult :=
  if owner = "" ∨ repo = "" then .missingParams
  else
    let repo_path := pyJoin REPO_DIR (snapshotDirName owner repo)
    if !pathExists fs repo_path then .repoNotCloned
    else .ok (file_paths.map (analyzeOne fs repo_path max_size))

/-! ## `GET /files` — `list_files` (lines 62-100) -/

/-- Relative path accumulation, `os.path.join(root, filename)` taken relative to the walk root: the
relative path accumulated during the walk
(`os.path.relpath(file_path, repo_path)`). -/
def joinRel (pre name : String) : String :=
  if pre = "" then name else pre ++ "/" ++ name

/-- Is the node a directory? -/
def FSNode.isDir : FSNode → Bool
  | .dir _ => true
  | .file _ => false

/-- The regular-file records of one directory's own entries: one
`(relative path, stat size)` pair per file in `filenames` of the
`os.walk` triple. -/
def filesOf (pre : String) (es : List (String × FSNode)) : List (String × Nat) :=
  es.filterMap fun e =>
    match e.2 with
    | .file c => some (joinRel pre e.1, byteSize c)
    | .dir _ => none

mutual

/-- Embedding of `os.walk(repo_path)` (lines 78-97) with the pruning
`dirs[:] = [d for d in dirs if d != '.git']`: emits the candidate
`(rel_path, size)` records in traversal order (each directory's own
files first, then its non-`.git` subdirectories recursively). -/
def walkNode (pre : String) : FSNode → List (String × Nat)
  | .file _ => []
  | .dir es => filesOf pre es ++ walkPruned pre es

/-- Recursion of `walkNode` over a directory's entries, skipping
subtrees named exactly `.git`. -/
def walkPruned (pre : String) : List (String × FSNode) → List (String × Nat)
  | [] => []
  | (name, n) :: rest =>
    (if n.isDir && name != ".git" then walkNode (joinRel pre name) n else [])
      ++ walkPruned pre rest

end

/-- Outcome of `list_files`: 400 missing params, 404 "Repository not
cloned", or 200 with the file records. -/
inductive ListFilesResult where
  | missingParams : ListFilesResult
  | repoNotCloned : ListFilesResult
  | ok (files : List (String × Nat)) : ListFilesResult
deriving DecidableEq

/-- Embedding of `list_files`: walks the snapshot and additionally drops
every record whose relative path contains `.git` as a substring
(`if '.git' in rel_path: continue`, line 88). -/
def list_files (fs : FSNode) (owner repo : String) : ListFilesResult :=
  if owner = "" ∨ repo = "" then .missingParams
  else
    let repo_path := pyJoin REPO_DIR (snapshotDirName owner repo)
    match fs.lookup (segsOf (normpath repo_path)) with
    | none => .repoNotCloned
    | some root =>
      .ok ((walkNode "" root).filter (fun e => !strContains e.1 ".git"))

/-! ## `POST /clone` — `clone_repo` (lines 20-60) -/

/-- The clone URL built at line 41:
`repo_url.replace('https://', f'https://{token}@') if token else repo_url`
(an absent or empty token is falsy). -/
def clone_url (token : Option String) (repo_url : String) : String :=
  match token with
  | some t =>
    if t = "" then repo_url
    else pyReplace repo_url "https://" ("https://" ++ t ++ "@")
  | none => repo_url

/-- Timeout bound, `timeout=300`, passed to `subprocess.run` for the clone (line 46). -/
def CLONE_TIMEOUT_SECONDS : Nat := 300

/-- The environment's behaviour for one `git clone` invocation: an
exception raised by `subprocess.run` itself (e.g. `OSError`), the
wall-clock duration the process would need, and its exit code and
diagnostic output on completion. -/
structure GitRun where
  raises : Option String
  duration : Nat
  exitCode : Int
  stderr : String
deriving DecidableEq

/-- The environment's behaviour for `subprocess.run(['rm','-rf',...],
check=True)`: success, or a failure message (with `check=True` a failure
raises `CalledProcessError`). -/
inductive RmOutcome where
  | ok : RmOutcome
  | fail (msg : String) : RmOutcome
deriving DecidableEq

/-- Outcome of `clone_repo`: 400 missing params; 200 success carrying
the snapshot path; 500 `"Git clone failed: <stderr>"`; 500
`"Clone operation timed out"`; 500 with the exception's message. -/
inductive CloneResult where
  | missingParams : CloneResult
  | success (path : String) : CloneResult
  | gitFailed (stderr : String) : CloneResult
  | timedOut : CloneResult
  | unexpected (msg : String) : CloneResult
deriving DecidableEq

/-- The `subprocess.run(['git', 'clone', '--depth', '1', clone_url,
repo_path], ..., timeout=300)` phase of `clone_repo` (lines 42-53):
`TimeoutExpired` when the process outlives the bound, non-zero exit
turned into a 500 carrying stderr, zero exit into success. -/
def gitClonePhase (git : GitRun) (_url repo_path : String) : CloneResult :=
  match git.raises with
  | some msg => .unexpected msg
  | none =>
    if git.duration > CLONE_TIMEOUT_SECONDS then .timedOut
    else if git.exitCode ≠ 0 then .gitFailed git.stderr
    else .success repo_path

/-- Embedding of `clone_repo`.  `dirExists` is whether a directory for
the key already exists; `rm` and `git` are the environment's behaviour
for the two subprocess invocations.  A failing `rm -rf` (with
`check=True`) raises `CalledProcessError`, which the generic
`except Exception` handler converts to a 500 — the clone itself never
runs in that case. -/
def clone_repo (dirExists : Bool) (rm : RmOutcome) (git : GitRun)
    (repo_url owner repo : String) (token : Option String) : CloneResult :=
  if repo_url = "" ∨ owner = "" ∨ repo = "" then .missingParams
  else
    let repo_path := pyJoin REPO_DIR (snapshotDirName owner repo)
    if dirExists then
      match rm with
      | .fail msg => .unexpected msg
      | .ok => gitClonePhase git (clone_url token repo_url) repo_path
    else gitClonePhase git (clone_url token repo_url) repo_path

/-- State effect of a successful clone on the children of `/repos`
(lines 33-47): the key's directory, if present, is removed
(`rm -rf repo_path`), then the fresh checkout is written at
`<owner>_<repo>`. -/
def cloneStep (repos : List (String × FSNode)) (owner repo : String)
    (checkout : FSNode) : List (String × FSNode) :=
  (repos.filter (fun e => e.1 != snapshotDirName owner repo))
    ++ [(snapshotDirName owner repo, checkout)]

/-! ## Spec-side reference definitions -/

/-- Modelled from the spec (§4.3): containment of the canonical target
within the canonical root by path-segment comparison — the root's
component list is a prefix of the target's component list. -/
def segWithin (root target : String) : Bool :=
  (segsOf (abspath root)).isPrefixOf (segsOf (abspath target))

mutual

/-- Modelled from the spec (§4.4): the full enumeration — "emits one
record per regular file with its path relative to the root and its byte
size from a filesystem stat" — with no skipping at all.  The amended C4
characterizes the served listing as this enumeration filtered by the
substring test on `.git`. -/
def allNode (pre : String) : FSNode → List (String × Nat)
  | .file _ => []
  | .dir es => filesOf pre es ++ allDirs pre es

/-- Recursion of `allNode` over a directory's entries: every
subdirectory is visited. -/
def allDirs (pre : String) : List (String × FSNode) → List (String × Nat)
  | [] => []
  | (name, n) :: rest =>
    (if n.isDir then allNode (joinRel pre name) n else []) ++ allDirs pre rest

end

/-! ## Example filesystems -/

/-- A store holding two snapshots, `a_b` and `a_bc`, whose directory
names share a prefix. -/
def escapeFS : FSNode := .dir [("repos", .dir [
  ("a_b", .dir [("real.txt", .file "hi".toList)]),
  ("a_bc", .dir [("secret.txt", .file "SECRET".toList)])])]

/-- A store holding one snapshot `o_r` with a regular file, a
subdirectory, and a file whose single character `é` occupies two UTF-8
bytes. -/
def demoFS : FSNode := .dir [("repos", .dir [
  ("o_r", .dir [
    ("good.txt", .file "hi".toList),
    ("sub", .dir [("x.py", .file "abc".toList)]),
    ("note.txt", .file ['é'])])])]

/-- A snapshot tree holding version-control metadata (`.git/config`), a
`.gitignore` file, and two ordinary files. -/
def gitRoot : FSNode := .dir [
  (".gitignore", .file "x".toList),
  (".git", .dir [("config", .file "c".toList)]),
  ("README.md", .file "r".toList),
  ("src", .dir [("main.py", .file "hi".toList)])]

/-- A store holding `gitRoot` as the snapshot for key `(g, h)`. -/
def gitFS : FSNode := .dir [("repos", .dir [("g_h", gitRoot)])]

/-! ## Helper lemmas -/

/-- The executable substring occurrence test agrees with `List.IsInfix`. -/
theorem seqOccurs_iff (needle l : List Char) :
    seqOccurs needle l = true ↔ needle <:+: l := by
  induction l with
  | nil =>
    simp [seqOccurs, List.isEmpty_iff]
  | cons c rest ih =>
    simp [seqOccurs, List.infix_cons_iff, ih]

/-- The executable substring test agrees with `List.IsInfix` on the
underlying character lists. -/
theorem strContains_iff (hay needle : String) :
    strContains hay needle = true ↔ needle.toList <:+: hay.toList :=
  seqOccurs_iff _ _

/-- A substring of `pre` is a substring of `joinRel pre name`. -/
theorem strContains_joinRel_left (pre name needle : String)
    (h : strContains pre needle = true) :
    strContains (joinRel pre name) needle = true := by
  rw [strContains_iff] at h ⊢
  by_cases hpre : pre = ""
  · subst hpre
    have hn : needle.data = [] := by simpa [String.toList] using h
    simp [joinRel, String.toList, hn]
  · have h2 : needle.toList <:+: pre.toList ++ ("/" ++ name).toList :=
      h.trans ((List.prefix_append _ _).isInfix)
    simpa [joinRel, hpre, String.toList, List.append_assoc] using h2

/-- A substring of `name` is a substring of `joinRel pre name`. -/
theorem strContains_joinRel_right (pre name needle : String)
    (h : strContains name needle = true) :
    strContains (joinRel pre name) needle = true := by
  rw [strContains_iff] at h ⊢
  by_cases hpre : pre = ""
  · subst hpre
    simpa [joinRel] using h
  · have h2 : needle.toList <:+: (pre ++ "/").toList ++ name.toList :=
      h.trans (List.suffix_append _ _).isInfix
    simpa [joinRel, hpre, String.toList, List.append_assoc] using h2

/-- Every record that `filesOf` emits has a path of the form
`joinRel pre name` for an entry `name` of the directory. -/
theorem filesOf_path {pre : String} {es : List (String × FSNode)}
    {e : String × Nat} (he : e ∈ filesOf pre es) :
    ∃ name node, (name, node) ∈ es ∧ e.1 = joinRel pre name := by
  unfold filesOf at he
  rw [List.mem_filterMap] at he
  obtain ⟨⟨name, node⟩, hmem, hsome⟩ := he
  cases node with
  | file c =>
    refine ⟨name, .file c, hmem, ?_⟩
    simp only [Option.some.injEq] at hsome
    rw [← hsome]
  | dir es2 => simp at hsome

/-- When the walk prefix already contains `.git`, every record of one
directory level is dropped by the substring filter. -/
theorem filter_filesOf_git_nil (pre : String) (es : List (String × FSNode))
    (h : strContains pre ".git" = true) :
    (filesOf pre es).filter (fun e => !strContains e.1 ".git") = [] := by
  rw [List.filter_eq_nil_iff]
  intro e he
  obtain ⟨name, node, _, hpath⟩ := filesOf_path he
  simp [hpath, strContains_joinRel_left _ _ _ h]

mutual

/-- When the walk prefix already contains `.git`, the whole subtree's
enumeration is dropped by the substring filter. -/
theorem allNode_filter_git_nil (pre : String) (n : FSNode)
    (h : strContains pre ".git" = true) :
    (allNode pre n).filter (fun e => !strContains e.1 ".git") = [] := by
  match n with
  | .file _ => simp [allNode]
  | .dir es =>
    rw [allNode, List.filter_append, filter_filesOf_git_nil pre es h,
      allDirs_filter_git_nil pre es h]
    rfl

/-- List form of `allNode_filter_git_nil`. -/
theorem allDirs_filter_git_nil (pre : String) (es : List (String × FSNode))
    (h : strContains pre ".git" = true) :
    (allDirs pre es).filter (fun e => !strContains e.1 ".git") = [] := by
  match es with
  | [] => simp [allDirs]
  | (name, n) :: rest =>
    rw [allDirs, List.filter_append, allDirs_filter_git_nil pre rest h]
    cases n with
    | file c => simp [FSNode.isDir]
    | dir es2 =>
      have hz := allNode_filter_git_nil (joinRel pre name) (.dir es2)
        (strContains_joinRel_left _ _ _ h)
      simp [FSNode.isDir, hz]

end

mutual

/-- Pruning `.git` subtrees during the walk is invisible after the
substring filter: the pruned walk and the full enumeration agree. -/
theorem walkNode_filter_git (pre : String) (n : FSNode) :
    (walkNode pre n).filter (fun e => !strContains e.1 ".git")
      = (allNode pre n).filter (fun e => !strContains e.1 ".git") := by
  match n with
  | .file _ => rfl
  | .dir es =>
    rw [walkNode, allNode, List.filter_append, List.filter_append,
      walkPruned_filter_git pre es]

/-- List form of `walkNode_filter_git`. -/
theorem walkPruned_filter_git (pre : String) (es : List (String × FSNode)) :
    (walkPruned pre es).filter (fun e => !strContains e.1 ".git")
      = (allDirs pre es).filter (fun e => !strContains e.1 ".git") := by
  match es with
  | [] => rfl
  | (name, n) :: rest =>
    rw [walkPruned, allDirs, List.filter_append, List.filter_append,
      walkPruned_filter_git pre rest]
    congr 1
    cases n with
    | file c => simp [FSNode.isDir]
    | dir es2 =>
      by_cases hname : name = ".git"
      · subst hname
        have hz := allNode_filter_git_nil (joinRel pre ".git") (.dir es2)
          (strContains_joinRel_right _ _ _ (by decide))
        simp [FSNode.isDir, hz]
      · have hbne : (name != ".git") = true := by
          simp [bne_iff_ne, hname]
        simp only [FSNode.isDir, Bool.true_and, hbne, if_true]
        exact walkNode_filter_git (joinRel pre name) (.dir es2)

end

/-- Replacement of a pattern that does not occur leaves the list
unchanged, for every recursion bound. -/
theorem replaceAux_no_occurrence (pat rep : List Char) :
    ∀ fuel l, seqOccurs pat l = false → replaceAux pat rep fuel l = l := by
  intro fuel
  induction fuel with
  | zero => intro l h; cases l <;> rfl
  | succ f ih =>
    intro l h
    cases l with
    | nil => rfl
    | cons c rest =>
      have h2 : pat.isPrefixOf (c :: rest) = false ∧ seqOccurs pat rest = false := by
        simpa [seqOccurs] using h
      simp only [replaceAux]
      rw [if_neg (by simp [h2.1]), ih rest h2.2]

/-- After a clone, looking the key's directory name up among the
children of `/repos` finds exactly the fresh checkout (the filter
removed every older entry with that name, and the checkout is appended
behind entries with other names). -/
theorem cloneStep_lookup (repos : List (String × FSNode)) (owner repo : String)
    (checkout : FSNode) :
    (FSNode.dir (cloneStep repos owner repo checkout)).lookup
      [snapshotDirName owner repo] = some checkout := by
  have hfind : (cloneStep repos owner repo checkout).find?
      (fun e => e.1 == snapshotDirName owner repo)
      = some (snapshotDirName owner repo, checkout) := by
    unfold cloneStep
    rw [List.find?_append]
    have hnone : (repos.filter (fun e => e.1 != snapshotDirName owner repo)).find?
        (fun e => e.1 == snapshotDirName owner repo) = none := by
      rw [List.find?_eq_none]
      intro x hx
      have hne := (List.mem_filter.mp hx).2
      simp only [bne_iff_ne, ne_eq] at hne
      simp [hne]
    rw [hnone]
    simp
  simp only [FSNode.lookup, hfind]

/-! ## Claims -/

/-- C1: the spec claims every relative path with traversal segments
whose resolution lies outside the snapshot root is rejected by both read
operations and never yields outside content.  The code violates this:
its `startswith` string comparison accepts `../a_bc/secret.txt` under
root `/repos/a_b` — a path with a `..` segment whose canonical form
`/repos/a_bc/secret.txt` is outside the root by segment comparison — and
both the single-file and the batch read return the sibling snapshot's
file content. -/
theorem c1_traversal_read_outside_root :
    (".." ∈ segsOf "../a_bc/secret.txt")
    ∧ segWithin (pyJoin REPO_DIR (snapshotDirName "a" "b"))
        (pyJoin (pyJoin REPO_DIR (snapshotDirName "a" "b")) "../a_bc/secret.txt") = false
    ∧ get_file escapeFS "a" "b" "../a_bc/secret.txt"
        = .ok "../a_bc/secret.txt" "SECRET".toList
    ∧ analyze_files escapeFS "a" "b" ["../a_bc/secret.txt"] 8000
        = .ok [⟨"../a_bc/secret.txt", "SECRET".toList, none⟩] := by
  decide

/-- C2 (counterexample): the resolver does not compare by path segments —
it accepts `../a_bx/y.txt` under root `/repos/a_b`, whose canonical form
`/repos/a_bx/y.txt` lies in a sibling directory merely sharing a name
prefix with the root. -/
theorem c2_sibling_prefix_accepted :
    resolveOk "/repos/a_b" (pyJoin "/repos/a_b" "../a_bx/y.txt") = true
    ∧ segWithin "/repos/a_b" (pyJoin "/repos/a_b" "../a_bx/y.txt") = false := by
  decide

/-- C2 (amended): the resolver canonicalizes both sides but then
compares by raw string prefix, not by path segment; genuine children are
accepted and full escapes rejected, but a sibling directory sharing a
name prefix with the root is falsely accepted. -/
theorem c2_resolver_raw_string_prefix :
    (∀ root file_path, resolveOk root (pyJoin root file_path)
        = pyStartswith (abspath (pyJoin root file_path)) (abspath root))
    ∧ resolveOk "/repos/a_b" (pyJoin "/repos/a_b" "src/main.py") = true
    ∧ segWithin "/repos/a_b" (pyJoin "/repos/a_b" "src/main.py") = true
    ∧ resolveOk "/repos/a_b" (pyJoin "/repos/a_b" "../../etc/passwd") = false
    ∧ resolveOk "/repos/a_b" (pyJoin "/repos/a_b" "../a_bc/x") = true
    ∧ segWithin "/repos/a_b" (pyJoin "/repos/a_b" "../a_bc/x") = false :=
  ⟨fun _ _ => rfl, by decide, by decide, by decide, by decide, by decide⟩

/-- C3: with a snapshot present, the batch read returns exactly one
entry per requested path, in request order (the result is the map of the
per-path handler over the request list); each entry's `path` echoes its
request, an entry with an error carries empty content, and an entry
without an error carries the file's content capped to `max_size` —
failures are per-entry and never disturb the other entries. -/
theorem c3_batch_isolation (fs : FSNode) (owner repo : String)
    (paths : List String) (max_size : Nat)
    (ho : owner ≠ "") (hr : repo ≠ "")
    (hex : pathExists fs (pyJoin REPO_DIR (snapshotDirName owner repo)) = true) :
    analyze_files fs owner repo paths max_size
      = .ok (paths.map (analyzeOne fs (pyJoin REPO_DIR (snapshotDirName owner repo)) max_size))
    ∧ (paths.map (analyzeOne fs (pyJoin REPO_DIR (snapshotDirName owner repo)) max_size)).length
        = paths.length
    ∧ (∀ p, (analyzeOne fs (pyJoin REPO_DIR (snapshotDirName owner repo)) max_size p).path = p)
    ∧ (∀ p, (analyzeOne fs (pyJoin REPO_DIR (snapshotDirName owner repo)) max_size p).error.isSome
          = true →
        (analyzeOne fs (pyJoin REPO_DIR (snapshotDirName owner repo)) max_size p).content = [])
    ∧ (∀ p, (analyzeOne fs (pyJoin REPO_DIR (snapshotDirName owner repo)) max_size p).error
          = none →
        (analyzeOne fs (pyJoin REPO_DIR (snapshotDirName owner repo)) max_size p).content
          = (readAll fs (pyJoin (pyJoin REPO_DIR (snapshotDirName owner repo)) p)).take
              max_size) := by
  refine ⟨?_, List.length_map _ _, ?_, ?_, ?_⟩
  · simp [analyze_files, ho, hr, hex]
  · intro p
    unfold analyzeOne
    dsimp only
    split
    · rfl
    · split <;> rfl
  · intro p
    unfold analyzeOne
    dsimp only
    split
    · simp
    · split <;> simp
  · intro p
    unfold analyzeOne
    dsimp only
    split
    · simp
    · split <;> simp

/-- C3 witness: a concrete batch with one good path, one traversal and
one missing file returns three entries in order, the good one with its
content and the two failing ones with empty content and an error. -/
theorem c3_batch_isolation_witness :
    analyze_files demoFS "o" "r" ["good.txt", "../x", "missing"] 8000
      = .ok [⟨"good.txt", "hi".toList, none⟩,
             ⟨"../x", [], some "Invalid file path"⟩,
             ⟨"missing", [], some "File not found"⟩] := by
  have h := c3_batch_isolation demoFS "o" "r" ["good.txt", "../x", "missing"] 8000
    (by decide) (by decide) (by decide)
  exact h.1.trans (by decide)

/-- C4 (counterexample): the spec claims every regular file outside
`.git` subtrees is listed, naming `.gitignore` as listed.  In `gitRoot`,
`.gitignore` is a regular file outside any `.git` subtree — the pruned
walk emits a record for it — yet the served listing omits it, because
the code also drops any record whose relative path contains `.git` as a
substring. -/
theorem c4_gitignore_missing :
    list_files gitFS "g" "h" = .ok [("README.md", 1), ("src/main.py", 2)]
    ∧ walkNode "" gitRoot
        = [(".gitignore", 1), ("README.md", 1), ("src/main.py", 2)] := by
  decide

/-- C4 (amended): the listing for a present snapshot contains exactly
the regular-file records of the full recursive enumeration whose
relative path does not contain `.git` as a substring (which subsumes
skipping `.git` subtrees, and additionally drops files such as
`.gitignore`). -/
theorem c4_listing_filters_git_substring (fs root : FSNode) (owner repo : String)
    (ho : owner ≠ "") (hr : repo ≠ "")
    (hroot : fs.lookup (segsOf (normpath (pyJoin REPO_DIR (snapshotDirName owner repo))))
      = some root) :
    list_files fs owner repo
      = .ok ((allNode "" root).filter (fun e => !strContains e.1 ".git")) := by
  simp only [list_files, hroot]
  rw [if_neg (by simp [ho, hr]), walkNode_filter_git]

/-- C4 witness: the amended characterization evaluated on the concrete
store `gitFS`. -/
theorem c4_listing_filters_git_substring_witness :
    list_files gitFS "g" "h" = .ok ((allNode "" gitRoot).filter
      (fun e => !strContains e.1 ".git")) := by
  have h := c4_listing_filters_git_substring gitFS gitRoot "g" "h"
    (by decide) (by decide) rfl
  exact h

/-- C5 (counterexample): the batch read's size cap is not a raw-byte
budget.  The file `note.txt` holds one two-byte character; with
`max_size = 1` the batch read returns the whole character, whose UTF-8
byte length 2 exceeds the cap. -/
theorem c5_byte_cap_exceeded :
    byteSize (readAll demoFS "/repos/o_r/note.txt") = 2
    ∧ analyze_files demoFS "o" "r" ["note.txt"] 1
        = .ok [⟨"note.txt", ['é'], none⟩]
    ∧ byteSize ['é'] = 2 := by
  decide

/-- C5 (amended): the cap is a decoded-character budget — a successful
entry carries the first `max_size` characters of the decoded file, so
its character length never exceeds `max_size`, but its byte length
can. -/
theorem c5_char_cap (fs : FSNode) (repo_path file_path : String) (max_size : Nat) :
    (analyzeOne fs repo_path max_size file_path).content.length ≤ max_size
    ∧ ((analyzeOne fs repo_path max_size file_path).error = none →
        (analyzeOne fs repo_path max_size file_path).content
          = (readAll fs (pyJoin repo_path file_path)).take max_size) := by
  constructor
  · unfold analyzeOne
    dsimp only
    split
    · simp
    · split
      · simp
      · simp
  · intro hnone
    unfold analyzeOne at hnone ⊢
    dsimp only at hnone ⊢
    split at hnone
    · simp at hnone
    · split at hnone
      · simp at hnone
      · simp_all

/-- C5 witness: the character cap evaluated on the two-byte-character
file with `max_size = 1`. -/
theorem c5_char_cap_witness :
    (analyzeOne demoFS "/repos/o_r" 1 "note.txt").content.length ≤ 1
    ∧ (analyzeOne demoFS "/repos/o_r" 1 "note.txt").content = ['é'] := by
  have h := c5_char_cap demoFS "/repos/o_r" "note.txt" 1
  exact ⟨h.1, (h.2 (by decide)).trans (by decide)⟩

/-- C6: with all required parameters present, a failing clone yields
exactly one of three error kinds — a failing deletion of the
pre-existing directory aborts with the unexpected-failure kind (the
checkout never runs), an exception from launching the client is the
unexpected kind, exceeding the 300-second bound is the timeout kind, and
a non-zero client exit is the external-tool kind carrying the client's
diagnostic output; every outcome is success or one of those three. -/
theorem c6_clone_failure_taxonomy (rm : RmOutcome) (git : GitRun)
    (url owner repo : String) (tok : Option String) (dirExists : Bool)
    (hu : url ≠ "") (ho : owner ≠ "") (hr : repo ≠ "") :
    (∀ msg, dirExists = true → rm = .fail msg →
        clone_repo dirExists rm git url owner repo tok = .unexpected msg)
    ∧ (∀ msg, git.raises = some msg → (dirExists = true → rm = .ok) →
        clone_repo dirExists rm git url owner repo tok = .unexpected msg)
    ∧ (git.raises = none → git.duration > CLONE_TIMEOUT_SECONDS →
        (dirExists = true → rm = .ok) →
        clone_repo dirExists rm git url owner repo tok = .timedOut)
    ∧ (git.raises = none → git.duration ≤ CLONE_TIMEOUT_SECONDS → git.exitCode ≠ 0 →
        (dirExists = true → rm = .ok) →
        clone_repo dirExists rm git url owner repo tok = .gitFailed git.stderr)
    ∧ ((∃ p, clone_repo dirExists rm git url owner repo tok = .success p)
        ∨ (∃ s, clone_repo dirExists rm git url owner repo tok = .gitFailed s)
        ∨ clone_repo dirExists rm git url owner repo tok = .timedOut
        ∨ (∃ m, clone_repo dirExists rm git url owner repo tok = .unexpected m)) := by
  have hcond : ¬(url = "" ∨ owner = "" ∨ repo = "") := by simp [hu, ho, hr]
  have hph : ∀ p : String,
      (∃ q, gitClonePhase git (clone_url tok url) p = .success q)
      ∨ (∃ s, gitClonePhase git (clone_url tok url) p = .gitFailed s)
      ∨ gitClonePhase git (clone_url tok url) p = .timedOut
      ∨ (∃ m, gitClonePhase git (clone_url tok url) p = .unexpected m) := by
    intro p
    unfold gitClonePhase
    cases hgr : git.raises with
    | some m => exact .inr (.inr (.inr ⟨m, rfl⟩))
    | none =>
      by_cases hd : git.duration > CLONE_TIMEOUT_SECONDS
      · exact .inr (.inr (.inl (by simp [hd])))
      · by_cases hc : git.exitCode = 0
        · exact .inl ⟨p, by simp [hd, hc]⟩
        · exact .inr (.inl ⟨git.stderr, by simp [hd, hc]⟩)
  refine ⟨?_, ?_, ?_, ?_, ?_⟩
  · intro msg hex hrm
    subst hex; subst hrm
    simp [clone_repo, hcond]
  · intro msg hg hcd
    cases dirExists with
    | false => simp [clone_repo, hcond, gitClonePhase, hg]
    | true =>
      rw [hcd rfl]
      simp [clone_repo, hcond, gitClonePhase, hg]
  · intro hg hd hcd
    cases dirExists with
    | false => simp [clone_repo, hcond, gitClonePhase, hg, hd]
    | true =>
      rw [hcd rfl]
      simp [clone_repo, hcond, gitClonePhase, hg, hd]
  · intro hg hd hc hcd
    have hd2 : ¬(git.duration > CLONE_TIMEOUT_SECONDS) := by omega
    cases dirExists with
    | false => simp [clone_repo, hcond, gitClonePhase, hg, hd2, hc]
    | true =>
      rw [hcd rfl]
      simp [clone_repo, hcond, gitClonePhase, hg, hd2, hc]
  · cases dirExists with
    | false =>
      have h := hph (pyJoin REPO_DIR (snapshotDirName owner repo))
      simpa [clone_repo, hcond] using h
    | true =>
      cases rm with
      | ok =>
        have h := hph (pyJoin REPO_DIR (snapshotDirName owner repo))
        simpa [clone_repo, hcond] using h
      | fail m =>
        exact .inr (.inr (.inr ⟨m, by simp [clone_repo, hcond]⟩))

/-- C6 witness: a failing deletion aborts with the unexpected kind, a
301-second checkout times out, and exit code 128 yields the
external-tool kind carrying stderr. -/
theorem c6_clone_failure_taxonomy_witness :
    clone_repo true (.fail "rm: cannot remove") ⟨none, 1, 0, ""⟩
      "https://example.com/o/r.git" "o" "r" none = .unexpected "rm: cannot remove"
    ∧ clone_repo false .ok ⟨none, 301, 0, ""⟩ "https://example.com/o/r.git" "o" "r" none
      = .timedOut
    ∧ clone_repo false .ok ⟨none, 1, 128, "fatal: repository not found"⟩
      "https://example.com/o/r.git" "o" "r" none
      = .gitFailed "fatal: repository not found" := by
  refine ⟨?_, ?_, ?_⟩
  · exact (c6_clone_failure_taxonomy (.fail "rm: cannot remove") ⟨none, 1, 0, ""⟩ _ _ _
      none true (by decide) (by decide) (by decide)).1 _ rfl rfl
  · exact (c6_clone_failure_taxonomy .ok ⟨none, 301, 0, ""⟩ _ _ _
      none false (by decide) (by decide) (by decide)).2.2.1 rfl (by decide)
      (fun h => nomatch h)
  · exact (c6_clone_failure_taxonomy .ok ⟨none, 1, 128, "fatal: repository not found"⟩ _ _ _
      none false (by decide) (by decide) (by decide)).2.2.2.1 rfl (by decide) (by decide)
      (fun h => nomatch h)

/-- C7: cloning the same key twice leaves exactly one snapshot
directory for that key, holding only the latest checkout — the second
clone's state effect absorbs the first's, and among the children of
`/repos` exactly the entry `(key, latest checkout)` carries the key's
name. -/
theorem c7_clone_idempotent (repos : List (String × FSNode)) (owner repo : String)
    (c1 c2 : FSNode) :
    cloneStep (cloneStep repos owner repo c1) owner repo c2 = cloneStep repos owner repo c2
    ∧ (cloneStep (cloneStep repos owner repo c1) owner repo c2).filter
        (fun e => e.1 == snapshotDirName owner repo)
      = [(snapshotDirName owner repo, c2)] := by
  have h1 : cloneStep (cloneStep repos owner repo c1) owner repo c2
      = cloneStep repos owner repo c2 := by
    unfold cloneStep
    simp [List.filter_append, List.filter_filter]
  refine ⟨h1, ?_⟩
  rw [h1]
  unfold cloneStep
  simp [List.filter_append, List.filter_filter, bne]

/-- C8 (counterexample): the spec claims both read operations
distinguish a missing target from an existing non-regular-file target.
The batch read reports an existing directory (`sub`) and a missing file
with one and the same error — the claim fails for the batch
operation. -/
theorem c8_batch_collapses_error_kinds :
    analyze_files demoFS "o" "r" ["sub", "missing.txt"] 8000
      = .ok [⟨"sub", [], some "File not found"⟩,
             ⟨"missing.txt", [], some "File not found"⟩]
    ∧ get_file demoFS "o" "r" "sub" = .notAFile
    ∧ get_file demoFS "o" "r" "missing.txt" = .notFound := by
  decide

/-- C8 (amended): only the single-file read distinguishes the two
failures — a missing target yields NotFound and an existing
non-regular-file target yields NotAFile — while the batch read maps
both to the single "File not found" error. -/
theorem c8_single_file_distinct_kinds (fs : FSNode) (owner repo file_path : String)
    (max_size : Nat) (ho : owner ≠ "") (hr : repo ≠ "")
    (hsec : resolveOk (pyJoin REPO_DIR (snapshotDirName owner repo))
        (pyJoin (pyJoin REPO_DIR (snapshotDirName owner repo)) file_path) = true) :
    (pathExists fs (pyJoin (pyJoin REPO_DIR (snapshotDirName owner repo)) file_path) = false →
        get_file fs owner repo file_path = .notFound)
    ∧ (pathExists fs (pyJoin (pyJoin REPO_DIR (snapshotDirName owner repo)) file_path) = true →
        isFile fs (pyJoin (pyJoin REPO_DIR (snapshotDirName owner repo)) file_path) = false →
        get_file fs owner repo file_path = .notAFile)
    ∧ ((pathExists fs (pyJoin (pyJoin REPO_DIR (snapshotDirName owner repo)) file_path) = false
        ∨ isFile fs (pyJoin (pyJoin REPO_DIR (snapshotDirName owner repo)) file_path) = false) →
        (analyzeOne fs (pyJoin REPO_DIR (snapshotDirName owner repo)) max_size file_path).error
          = some "File not found") := by
  refine ⟨?_, ?_, ?_⟩
  · intro hex
    simp [get_file, ho, hr, hsec, hex]
  · intro hex hisf
    simp [get_file, ho, hr, hsec, hex, hisf]
  · intro hbad
    rcases hbad with hex | hisf
    · simp [analyzeOne, hsec, hex]
    · simp [analyzeOne, hsec, hisf]

/-- C8 witness: the directory `sub` is NotAFile for the single-file read
but "File not found" for the batch read. -/
theorem c8_single_file_distinct_kinds_witness :
    get_file demoFS "o" "r" "sub" = .notAFile
    ∧ (analyzeOne demoFS (pyJoin REPO_DIR (snapshotDirName "o" "r")) 8000 "sub").error
        = some "File not found" := by
  have h := c8_single_file_distinct_kinds demoFS "o" "r" "sub" 8000
    (by decide) (by decide) (by decide)
  exact ⟨h.2.1 (by decide) (by decide), h.2.2 (.inr (by decide))⟩

/-- C9: the key-to-directory mapping is not injective — the distinct
keys `(a, b_c)` and `(a_b, c)` share the directory name `a_b_c`, so a
clone under the first key installs the checkout that a lookup under the
second key's directory name observes, whatever the store held before. -/
theorem c9_key_collision (repos : List (String × FSNode)) (checkout : FSNode) :
    snapshotDirName "a" "b_c" = snapshotDirName "a_b" "c"
    ∧ ("a", "b_c") ≠ (("a_b", "c") : String × String)
    ∧ (FSNode.dir (cloneStep repos "a" "b_c" checkout)).lookup
        [snapshotDirName "a_b" "c"] = some checkout := by
  refine ⟨by decide, by decide, ?_⟩
  rw [show snapshotDirName "a_b" "c" = snapshotDirName "a" "b_c" from by decide]
  exact cloneStep_lookup repos "a" "b_c" checkout

/-- C10: without a token the clone URL is the request's URL unchanged;
with a token but no `https://` occurrence in the URL the token is
silently ignored and the URL is unchanged; with a token, every
occurrence of `https://` is replaced by `https://<token>@`, as the
two-occurrence example shows. -/
theorem c10_clone_url_token (u t : String) (ht : t ≠ "") :
    clone_url none u = u
    ∧ (strContains u "https://" = false → clone_url (some t) u = u)
    ∧ clone_url (some "TOKEN") "https://a.example/https://b"
        = "https://TOKEN@a.example/https://TOKEN@b" := by
  refine ⟨rfl, ?_, by decide⟩
  intro hno
  show (if t = "" then u else pyReplace u "https://" ("https://" ++ t ++ "@")) = u
  rw [if_neg ht]
  unfold pyReplace
  rw [if_neg (by decide : ¬(("https://" : String) = ""))]
  rw [replaceAux_no_occurrence _ _ _ _ hno]
  rfl

/-- C10 witness: an `ssh://` URL is unchanged both without a token and
with one. -/
theorem c10_clone_url_token_witness :
    clone_url none "ssh://git@host/a.git" = "ssh://git@host/a.git"
    ∧ clone_url (some "TOKEN") "ssh://git@host/a.git" = "ssh://git@host/a.git" := by
  have h := c10_clone_url_token "ssh://git@host/a.git" "TOKEN" (by decide)
  exact ⟨h.1, h.2.1 (by decide)⟩

end RepoAnalyzer
